import Mathlib

/-!
Shallow embedding of the `catalogfi/tools` configuration resolver
(`pkg/config/config.go`) and its AES-256-GCM helper (`pkg/cryptutil/aes.go`).

Go strings and byte slices are both modelled as `List Nat` (a Go string is a
byte sequence); the process environment is a partial map from names to
values, with `os.Getenv` returning the empty string for an unset variable.
Errors are an inductive type with one constructor per distinct error the
source can produce, wrapping (`fmt.Errorf("...: %w", err)`) modelled by a
constructor carrying the cause.
-/

namespace Tools

/-- A Go string / byte slice: a list of byte values. -/
abbrev Str := List Nat

/-- The process environment: `none` means the variable is unset.
`os.Getenv` collapses unset and empty to the empty string (see `Getenv`). -/
abbrev Env := Str → Option Str

/-- The distinct errors of `pkg/config` and `pkg/cryptutil`. -/
inductive Err where
  /-- "environment variable %s not found" -/
  | envNotFound (key : Str)
  /-- `ErrEmptyData` -/
  | emptyData
  /-- `ErrEmptyKey` -/
  | emptyKey
  /-- `ErrInvalidKeyLength` -/
  | invalidKeyLength
  /-- "cryptutil: invalid hex data: %w" -/
  | invalidHexData
  /-- "cryptutil: invalid hex key: %w" -/
  | invalidHexKey
  /-- "cryptutil: failed to create (AES) cipher: %w" -/
  | createCipherFailed
  /-- "cryptutil: encrypted data too short" -/
  | dataTooShort
  /-- "cryptutil: decryption failed: %w" (GCM authentication failure) -/
  | decryptionFailed
  /-- "failed to create AES decryptor: %w", wrapping the cause -/
  | createDecryptorFailed (cause : Err)
  /-- "expected pointer to struct, got %T" -/
  | expectedPointerToStruct
deriving DecidableEq, Repr

/-! ## Hex encoding (`encoding/hex` as used by the source) -/

/-- Value of one hex digit byte (`0-9`, `a-f`, `A-F`), `none` otherwise. -/
def hexDigitVal (c : Nat) : Option Nat :=
  if 48 ≤ c ∧ c ≤ 57 then some (c - 48)
  else if 97 ≤ c ∧ c ≤ 102 then some (c - 87)
  else if 65 ≤ c ∧ c ≤ 70 then some (c - 55)
  else none

/-- `hex.DecodeString`: pairs of hex digits; fails on odd length or a
non-hex byte. -/
def hexDecodeBytes : Str → Option (List Nat)
  | [] => some []
  | [_] => none
  | hi :: lo :: rest => do
      let h ← hexDigitVal hi
      let l ← hexDigitVal lo
      let tail ← hexDecodeBytes rest
      pure ((h * 16 + l) :: tail)

/-- The lower-case hex digit byte for a value `< 16`. -/
def hexDigitChar (n : Nat) : Nat :=
  if n < 10 then 48 + n else 87 + n

/-- `hex.EncodeToString`: two lower-case hex digits per byte. -/
def hexEncode : List Nat → Str
  | [] => []
  | b :: rest => hexDigitChar (b / 16) :: hexDigitChar (b % 16) :: hexEncode rest

/-! ## cryptutil (`pkg/cryptutil/aes.go`) -/

/-- Modelled from the spec: the authenticated AEAD primitive (Go's
`crypto/cipher` GCM implementation) is external to this repository, so it is
represented by its contract (§4.3 of the spec): sealing under a key and a
nonce, and an opening operation that recovers the plaintext under the same
key and nonce and rejects any other key of valid length. -/
structure GCMModel where
  nonceSize : Nat
  nonceSizePos : 0 < nonceSize
  sealC : List Nat → List Nat → List Nat → List Nat
  openC : List Nat → List Nat → List Nat → Option (List Nat)
  seal_open : ∀ key nonce p, key.length = 32 → nonce.length = nonceSize →
    openC key nonce (sealC key nonce p) = some p
  auth : ∀ key key' nonce p, key.length = 32 → key'.length = 32 → key' ≠ key →
    openC key' nonce (sealC key nonce p) = none

/-- The `AES256` struct: holds the 32-byte key. -/
structure AES256 where
  key : List Nat
deriving DecidableEq, Repr

/-- `aes.NewCipher` accepts keys of 16, 24 or 32 bytes. -/
def validAESKeyLen (key : List Nat) : Bool :=
  key.length == 16 || key.length == 24 || key.length == 32

/-- `NewAES256`: empty key, invalid hex, and a decoded length other than 32
bytes are each rejected; the wrong-length case by the distinct sentinel
`ErrInvalidKeyLength`. -/
def NewAES256 (hexKey : Str) : Except Err AES256 :=
  if hexKey = [] then .error .emptyKey
  else
    match hexDecodeBytes hexKey with
    | none => .error .invalidHexKey
    | some key =>
        if key.length ≠ 32 then .error .invalidKeyLength
        else .ok ⟨key⟩

/-- `hexDecode` helper of the source: empty input is `ErrEmptyData`, bad hex
is an error, otherwise the decoded bytes. -/
def hexDecode (hexData : Str) : Except Err (List Nat) :=
  if hexData = [] then .error .emptyData
  else
    match hexDecodeBytes hexData with
    | none => .error .invalidHexData
    | some data => .ok data

/-- `Encrypt`: rejects empty plaintext, then prepends the nonce to the GCM
sealing of the plaintext (`gcm.Seal(nonce, nonce, plaintext, nil)`). The
random nonce drawn by the source is a parameter here. -/
def Encrypt (G : GCMModel) (a : AES256) (nonce plaintext : List Nat) :
    Except Err (List Nat) :=
  if plaintext = [] then .error .emptyData
  else if validAESKeyLen a.key then
    .ok (nonce ++ G.sealC a.key nonce plaintext)
  else .error .createCipherFailed

/-- `Decrypt`: rejects empty input and input shorter than the nonce, splits
off the nonce, and opens the remainder; authentication failure is
`decryptionFailed`. -/
def Decrypt (G : GCMModel) (a : AES256) (data : List Nat) :
    Except Err (List Nat) :=
  if data = [] then .error .emptyData
  else if validAESKeyLen a.key then
    if data.length < G.nonceSize then .error .dataTooShort
    else
      match G.openC a.key (data.take G.nonceSize) (data.drop G.nonceSize) with
      | some plaintext => .ok plaintext
      | none => .error .decryptionFailed
  else .error .createCipherFailed

/-- `DecryptHexToString`: hex-decode, then decrypt (byte/string conversion
is the identity in this model). -/
def DecryptHexToString (G : GCMModel) (a : AES256) (hexData : Str) :
    Except Err Str := do
  let data ← hexDecode hexData
  Decrypt G a data

/-! ## config (`pkg/config/config.go`) -/

/-- The `Parser` struct: holds the AES secret. -/
structure Parser where
  AESSecret : Str
deriving DecidableEq, Repr

/-- `EnvPrefix = "#ENV:"` as bytes. -/
def EnvPrefix : Str := [35, 69, 78, 86, 58]

/-- `EncryptedEnvPrefix = "#EncryptedENV:"` as bytes. -/
def EncryptedEnvPrefix : Str :=
  [35, 69, 110, 99, 114, 121, 112, 116, 101, 100, 69, 78, 86, 58]

/-- `strings.TrimPrefix`: drop the marker when it is present, otherwise
return the string unchanged. -/
def trimPrefix (pre s : Str) : Str :=
  if pre.isPrefixOf s then s.drop pre.length else s

/-- `os.Getenv`: the empty string for an unset variable. -/
def Getenv (env : Env) (envKey : Str) : Str :=
  (env envKey).getD []

/-- `GetEnvValue`: an empty `os.Getenv` result is the missing-variable
error, naming the key. -/
def GetEnvValue (env : Env) (envKey : Str) : Except Err Str :=
  if Getenv env envKey = [] then .error (.envNotFound envKey)
  else .ok (Getenv env envKey)

/-- `decryptEnvValue`: build the AES decryptor from the parser's secret
(wrapping its error) and decrypt the hex value. -/
def decryptEnvValue (G : GCMModel) (p : Parser) (encryptedValue : Str) :
    Except Err Str :=
  match NewAES256 p.AESSecret with
  | .error e => .error (.createDecryptorFailed e)
  | .ok a => DecryptHexToString G a encryptedValue

/-- `processEnvString`: the indirection-dispatch policy — plain marker,
then encrypted marker, otherwise the string is returned unchanged. -/
def processEnvString (G : GCMModel) (env : Env) (p : Parser) (value : Str) :
    Except Err Str :=
  if EnvPrefix.isPrefixOf value then
    GetEnvValue env (trimPrefix EnvPrefix value)
  else if EncryptedEnvPrefix.isPrefixOf value then
    match GetEnvValue env (trimPrefix EncryptedEnvPrefix value) with
    | .error e => .error e
    | .ok envValue => decryptEnvValue G p envValue
  else .ok value

/-- A reflected Go value, as the traversal dispatches on `reflect.Kind`:
strings, structs (each field with its exported flag — for the addressable
values the traversal reaches, `CanInterface` and `CanSet` coincide with
exportedness), pointers, maps with string keys, slices, and every other
kind (numbers, booleans, ...), which the traversal leaves untouched. -/
inductive Value where
  | str (s : Str)
  | struct_ (fields : List (Bool × Value))
  | ptr (v : Option Value)
  | map_ (entries : List (Str × Value))
  | slice (elems : List Value)
  | other

mutual

/-- `processField`: skip unsettable fields, resolve string fields through
`processEnvString`, recurse into structs, non-nil pointers to structs,
maps and slices; other kinds are untouched. -/
def processField (G : GCMModel) (env : Env) (p : Parser) (canSet : Bool)
    (v : Value) : Except Err Value :=
  if !canSet then .ok v
  else
    match v with
    | .str s =>
        if s = [] then .ok (.str s)
        else
          match processEnvString G env p s with
          | .error e => .error e
          | .ok newVal => .ok (.str newVal)
    | .struct_ fields =>
        match processStructFields G env p fields with
        | .error e => .error e
        | .ok fields' => .ok (.struct_ fields')
    | .ptr v? =>
        match v? with
        | some (.struct_ fields) =>
            match processStructFields G env p fields with
            | .error e => .error e
            | .ok fields' => .ok (.ptr (some (.struct_ fields')))
        | _ => .ok (.ptr v?)
    | .map_ entries =>
        match processMap G env p entries with
        | .error e => .error e
        | .ok entries' => .ok (.map_ entries')
    | .slice elems =>
        match processSlice G env p elems with
        | .error e => .error e
        | .ok elems' => .ok (.slice elems')
    | .other => .ok .other

/-- `processStructFields`: iterate the fields in order, skipping fields
that are not exported (`CanInterface`); the first error aborts. -/
def processStructFields (G : GCMModel) (env : Env) (p : Parser) :
    List (Bool × Value) → Except Err (List (Bool × Value))
  | [] => .ok []
  | (exported, v) :: rest =>
      if !exported then
        match processStructFields G env p rest with
        | .error e => .error e
        | .ok rest' => .ok ((exported, v) :: rest')
      else
        match processField G env p exported v with
        | .error e => .error e
        | .ok v' =>
            match processStructFields G env p rest with
            | .error e => .error e
            | .ok rest' => .ok ((exported, v') :: rest')

/-- `processMap`: a struct or pointer value is copied into a fresh settable
value, processed, and reinserted under the same key; a string value is
resolved and rewritten; every other value kind is left untouched. -/
def processMap (G : GCMModel) (env : Env) (p : Parser) :
    List (Str × Value) → Except Err (List (Str × Value))
  | [] => .ok []
  | (k, v) :: rest =>
      match v with
      | .struct_ fields =>
          match processField G env p true (.struct_ fields) with
          | .error e => .error e
          | .ok v' =>
              match processMap G env p rest with
              | .error e => .error e
              | .ok rest' => .ok ((k, v') :: rest')
      | .ptr v? =>
          match processField G env p true (.ptr v?) with
          | .error e => .error e
          | .ok v' =>
              match processMap G env p rest with
              | .error e => .error e
              | .ok rest' => .ok ((k, v') :: rest')
      | .str s =>
          match processEnvString G env p s with
          | .error e => .error e
          | .ok newVal =>
              match processMap G env p rest with
              | .error e => .error e
              | .ok rest' => .ok ((k, .str newVal) :: rest')
      | _ =>
          match processMap G env p rest with
          | .error e => .error e
          | .ok rest' => .ok ((k, v) :: rest')

/-- `processSlice`: elements in index order, each through `processField`
(slice elements reached by the traversal are addressable, hence settable). -/
def processSlice (G : GCMModel) (env : Env) (p : Parser) :
    List Value → Except Err (List Value)
  | [] => .ok []
  | v :: rest =>
      match processField G env p true v with
      | .error e => .error e
      | .ok v' =>
          match processSlice G env p rest with
          | .error e => .error e
          | .ok rest' => .ok (v' :: rest')

end

/-- The top-level argument of `ProcessStruct` (a Go `any`): the nil
interface, a non-pointer value, or a pointer (possibly nil). -/
inductive RootArg where
  | nil
  | val (v : Value)
  | ptrTo (v? : Option Value)

/-- `ProcessStruct` (the spec's `Resolve`): only a non-nil pointer to a
struct is accepted; anything else is the usage error. -/
def ProcessStruct (G : GCMModel) (env : Env) (p : Parser) :
    RootArg → Except Err RootArg
  | .ptrTo (some (.struct_ fields)) =>
      match processStructFields G env p fields with
      | .error e => .error e
      | .ok fields' => .ok (.ptrTo (some (.struct_ fields')))
  | _ => .error .expectedPointerToStruct

/-! ## Specification predicates -/

/-- A non-indirection string: starts with neither marker. -/
def noIndB (s : Str) : Bool :=
  !EnvPrefix.isPrefixOf s && !EncryptedEnvPrefix.isPrefixOf s

mutual

/-- Every string anywhere in the value is a non-indirection string. -/
def allNoInd : Value → Bool
  | .str s => noIndB s
  | .struct_ fields => allNoIndFields fields
  | .ptr none => true
  | .ptr (some v) => allNoInd v
  | .map_ entries => allNoIndEntries entries
  | .slice elems => allNoIndElems elems
  | .other => true

/-- `allNoInd` over struct fields. -/
def allNoIndFields : List (Bool × Value) → Bool
  | [] => true
  | (_, v) :: rest => allNoInd v && allNoIndFields rest

/-- `allNoInd` over map entries. -/
def allNoIndEntries : List (Str × Value) → Bool
  | [] => true
  | (_, v) :: rest => allNoInd v && allNoIndEntries rest

/-- `allNoInd` over slice elements. -/
def allNoIndElems : List Value → Bool
  | [] => true
  | v :: rest => allNoInd v && allNoIndElems rest

end

/-- Output `b` preserves every non-indirection string of input `a` at its
place, and preserves the whole shape of the tree (only string contents may
change, and only at indirection strings). -/
inductive NonIndPreserved : Value → Value → Prop where
  | str (s s' : Str) : (noIndB s = true → s' = s) →
      NonIndPreserved (.str s) (.str s')
  | structNil : NonIndPreserved (.struct_ []) (.struct_ [])
  | structCons (b : Bool) (v v' : Value) (fs fs' : List (Bool × Value)) :
      NonIndPreserved v v' → NonIndPreserved (.struct_ fs) (.struct_ fs') →
      NonIndPreserved (.struct_ ((b, v) :: fs)) (.struct_ ((b, v') :: fs'))
  | ptrNone : NonIndPreserved (.ptr none) (.ptr none)
  | ptrSome (v v' : Value) : NonIndPreserved v v' →
      NonIndPreserved (.ptr (some v)) (.ptr (some v'))
  | mapNil : NonIndPreserved (.map_ []) (.map_ [])
  | mapCons (k : Str) (v v' : Value) (es es' : List (Str × Value)) :
      NonIndPreserved v v' → NonIndPreserved (.map_ es) (.map_ es') →
      NonIndPreserved (.map_ ((k, v) :: es)) (.map_ ((k, v') :: es'))
  | sliceNil : NonIndPreserved (.slice []) (.slice [])
  | sliceCons (v v' : Value) (xs xs' : List Value) :
      NonIndPreserved v v' → NonIndPreserved (.slice xs) (.slice xs') →
      NonIndPreserved (.slice (v :: xs)) (.slice (v' :: xs'))
  | other : NonIndPreserved .other .other

mutual

/-- `NonIndPreserved` is reflexive: leaving a value untouched preserves
its non-indirection strings. -/
def nonIndPreservedRefl : (v : Value) → NonIndPreserved v v
  | .str s => .str s s (fun _ => rfl)
  | .struct_ fields => nonIndPreservedFieldsRefl fields
  | .ptr none => .ptrNone
  | .ptr (some v) => .ptrSome v v (nonIndPreservedRefl v)
  | .map_ entries => nonIndPreservedEntriesRefl entries
  | .slice elems => nonIndPreservedElemsRefl elems
  | .other => .other

/-- Reflexivity over struct fields. -/
def nonIndPreservedFieldsRefl : (fs : List (Bool × Value)) →
    NonIndPreserved (.struct_ fs) (.struct_ fs)
  | [] => .structNil
  | (b, v) :: rest =>
      .structCons b v v rest rest (nonIndPreservedRefl v)
        (nonIndPreservedFieldsRefl rest)

/-- Reflexivity over map entries. -/
def nonIndPreservedEntriesRefl : (es : List (Str × Value)) →
    NonIndPreserved (.map_ es) (.map_ es)
  | [] => .mapNil
  | (k, v) :: rest =>
      .mapCons k v v rest rest (nonIndPreservedRefl v)
        (nonIndPreservedEntriesRefl rest)

/-- Reflexivity over slice elements. -/
def nonIndPreservedElemsRefl : (xs : List Value) →
    NonIndPreserved (.slice xs) (.slice xs)
  | [] => .sliceNil
  | v :: rest =>
      .sliceCons v v rest rest (nonIndPreservedRefl v)
        (nonIndPreservedElemsRefl rest)

end

/-- A concrete instance of the AEAD contract, used by the witnesses:
sealing prepends the 32-byte key to the plaintext. -/
def refGCM : GCMModel where
  nonceSize := 1
  nonceSizePos := Nat.one_pos
  sealC := fun key _ p => key ++ p
  openC := fun key _ c =>
    if key.length = 32 ∧ c.take 32 = key then some (c.drop 32) else none
  seal_open := by
    intro key nonce p hk _
    have ht : (key ++ p).take 32 = key := by rw [← hk]; exact List.take_left key p
    have hd : (key ++ p).drop 32 = p := by rw [← hk]; exact List.drop_left key p
    simp [ht, hd, hk]
  auth := by
    intro key key' nonce p hk hk' hne
    dsimp only
    have ht : (key ++ p).take 32 = key := by rw [← hk]; exact List.take_left key p
    rw [if_neg]
    rintro ⟨-, hEq⟩
    rw [ht] at hEq
    exact hne hEq.symm

/-! ## Marker and environment lemmas -/

theorem envPrefix_isPrefixOf_append (k : Str) :
    EnvPrefix.isPrefixOf (EnvPrefix ++ k) = true := by
  simp [List.isPrefixOf_iff_prefix]

theorem encPrefix_isPrefixOf_append (k : Str) :
    EncryptedEnvPrefix.isPrefixOf (EncryptedEnvPrefix ++ k) = true := by
  simp [List.isPrefixOf_iff_prefix]

theorem envPrefix_not_isPrefixOf_enc (k : Str) :
    EnvPrefix.isPrefixOf (EncryptedEnvPrefix ++ k) = false := by
  simp [EnvPrefix, EncryptedEnvPrefix, List.isPrefixOf]

theorem trimPrefix_append (pre k : Str) : trimPrefix pre (pre ++ k) = k := by
  simp [trimPrefix, List.isPrefixOf_iff_prefix]

theorem GetEnvValue_set (env : Env) (k v : Str) (hv : env k = some v)
    (hne : v ≠ []) : GetEnvValue env k = .ok v := by
  simp [GetEnvValue, Getenv, hv, hne]

theorem GetEnvValue_missing (env : Env) (k : Str) (h : Getenv env k = []) :
    GetEnvValue env k = .error (.envNotFound k) := by
  simp [GetEnvValue, h]

/-- Resolving a plain indirection: look the key up in the environment. -/
theorem processEnvString_plain (G : GCMModel) (env : Env) (p : Parser)
    (k : Str) :
    processEnvString G env p (EnvPrefix ++ k) = GetEnvValue env k := by
  rw [processEnvString, envPrefix_isPrefixOf_append, trimPrefix_append]
  rfl

/-- A non-indirection string resolves to itself. -/
theorem processEnvString_noInd (G : GCMModel) (env : Env) (p : Parser)
    (s : Str) (h : noIndB s = true) :
    processEnvString G env p s = .ok s := by
  simp only [noIndB, Bool.and_eq_true, Bool.not_eq_true'] at h
  simp [processEnvString, h.1, h.2]

/-! ## Idempotence on resolved trees -/

mutual

theorem processField_allNoInd (G : GCMModel) (env : Env) (p : Parser)
    (canSet : Bool) (v : Value) (h : allNoInd v = true) :
    processField G env p canSet v = .ok v := by
  cases v with
  | str s =>
      simp only [allNoInd] at h
      rw [processField.eq_1]
      simp [processEnvString_noInd G env p s h]
  | struct_ fields =>
      simp only [allNoInd] at h
      rw [processField.eq_2]
      simp [processStructFields_allNoInd G env p fields h]
  | ptr v? =>
      cases v? with
      | none =>
          rw [processField.eq_4 G env p canSet none (by intro _ h'; cases h')]
          simp
      | some v =>
          cases v with
          | struct_ fields =>
              simp only [allNoInd] at h
              rw [processField.eq_3]
              simp [processStructFields_allNoInd G env p fields h]
          | str s =>
              rw [processField.eq_4 G env p canSet _ (by intro _ h'; cases h')]
              simp
          | ptr w => 
              rw [processField.eq_4 G env p canSet _ (by intro _ h'; cases h')]
              simp
          | map_ es =>
              rw [processField.eq_4 G env p canSet _ (by intro _ h'; cases h')]
              simp
          | slice xs =>
              rw [processField.eq_4 G env p canSet _ (by intro _ h'; cases h')]
              simp
          | other =>
              rw [processField.eq_4 G env p canSet _ (by intro _ h'; cases h')]
              simp
  | map_ entries =>
      simp only [allNoInd] at h
      rw [processField.eq_5]
      simp [processMap_allNoInd G env p entries h]
  | slice elems =>
      simp only [allNoInd] at h
      rw [processField.eq_6]
      simp [processSlice_allNoInd G env p elems h]
  | other =>
      rw [processField.eq_7]
      simp

theorem processStructFields_allNoInd (G : GCMModel) (env : Env) (p : Parser)
    (fs : List (Bool × Value)) (h : allNoIndFields fs = true) :
    processStructFields G env p fs = .ok fs := by
  cases fs with
  | nil => rw [processStructFields]
  | cons f rest =>
      obtain ⟨b, v⟩ := f
      simp only [allNoIndFields, Bool.and_eq_true] at h
      rw [processStructFields]
      cases b with
      | false => simp [processStructFields_allNoInd G env p rest h.2]
      | true =>
          simp [processField_allNoInd G env p true v h.1,
            processStructFields_allNoInd G env p rest h.2]

theorem processMap_allNoInd (G : GCMModel) (env : Env) (p : Parser)
    (es : List (Str × Value)) (h : allNoIndEntries es = true) :
    processMap G env p es = .ok es := by
  cases es with
  | nil => rw [processMap]
  | cons e rest =>
      obtain ⟨k, v⟩ := e
      simp only [allNoIndEntries, Bool.and_eq_true] at h
      cases v with
      | str s =>
          rw [processMap]
          simp [processEnvString_noInd G env p s h.1,
            processMap_allNoInd G env p rest h.2]
      | struct_ fields =>
          rw [processMap]
          simp [processField_allNoInd G env p true (.struct_ fields) h.1,
            processMap_allNoInd G env p rest h.2]
      | ptr v? =>
          rw [processMap]
          simp [processField_allNoInd G env p true (.ptr v?) h.1,
            processMap_allNoInd G env p rest h.2]
      | map_ es' =>
          rw [processMap]
          · simp [processMap_allNoInd G env p rest h.2]
          all_goals (intro _ h'; cases h')
      | slice xs =>
          rw [processMap]
          · simp [processMap_allNoInd G env p rest h.2]
          all_goals (intro _ h'; cases h')
      | other =>
          rw [processMap]
          · simp [processMap_allNoInd G env p rest h.2]
          all_goals (intro _ h'; cases h')

theorem processSlice_allNoInd (G : GCMModel) (env : Env) (p : Parser)
    (xs : List Value) (h : allNoIndElems xs = true) :
    processSlice G env p xs = .ok xs := by
  cases xs with
  | nil => rw [processSlice]
  | cons v rest =>
      simp only [allNoIndElems, Bool.and_eq_true] at h
      rw [processSlice]
      simp [processField_allNoInd G env p true v h.1,
        processSlice_allNoInd G env p rest h.2]

end

/-! ## The traversal preserves non-indirection strings -/

mutual

theorem processField_preserves (G : GCMModel) (env : Env) (p : Parser) :
    ∀ (canSet : Bool) (v v' : Value),
      processField G env p canSet v = .ok v' → NonIndPreserved v v'
  | false, v, v', h => by
      rw [processField.eq_def] at h
      simp only [Bool.not_false, if_pos] at h
      cases h
      exact nonIndPreservedRefl v
  | true, .str s, v', h => by
      rw [processField.eq_1] at h
      simp only [Bool.not_true, Bool.false_eq_true, if_false] at h
      by_cases hs : s = []
      · rw [if_pos hs] at h
        cases h
        exact .str s s (fun _ => rfl)
      · rw [if_neg hs] at h
        cases heq : processEnvString G env p s with
        | error e => rw [heq] at h; cases h
        | ok w =>
            rw [heq] at h
            cases h
            refine .str s w (fun hno => ?_)
            have hok := processEnvString_noInd G env p s hno
            rw [heq] at hok
            exact (Except.ok.injEq _ _).mp hok
  | true, .struct_ fields, v', h => by
      rw [processField.eq_2] at h
      simp only [Bool.not_true, Bool.false_eq_true, if_false] at h
      cases heq : processStructFields G env p fields with
      | error e => rw [heq] at h; cases h
      | ok fields' =>
          rw [heq] at h
          cases h
          exact processStructFields_preserves G env p fields fields' heq
  | true, .ptr none, v', h => by
      rw [processField.eq_4 G env p true none (by intro _ h'; cases h')] at h
      simp only [Bool.not_true, Bool.false_eq_true, if_false] at h
      cases h
      exact .ptrNone
  | true, .ptr (some (.struct_ fields)), v', h => by
      rw [processField.eq_3] at h
      simp only [Bool.not_true, Bool.false_eq_true, if_false] at h
      cases heq : processStructFields G env p fields with
      | error e => rw [heq] at h; cases h
      | ok fields' =>
          rw [heq] at h
          cases h
          exact .ptrSome _ _ (processStructFields_preserves G env p fields fields' heq)
  | true, .ptr (some (.str s)), v', h => by
      rw [processField.eq_4 G env p true _ (by intro _ h'; cases h')] at h
      simp only [Bool.not_true, Bool.false_eq_true, if_false] at h
      cases h
      exact nonIndPreservedRefl _
  | true, .ptr (some (.ptr w)), v', h => by
      rw [processField.eq_4 G env p true _ (by intro _ h'; cases h')] at h
      simp only [Bool.not_true, Bool.false_eq_true, if_false] at h
      cases h
      exact nonIndPreservedRefl _
  | true, .ptr (some (.map_ es)), v', h => by
      rw [processField.eq_4 G env p true _ (by intro _ h'; cases h')] at h
      simp only [Bool.not_true, Bool.false_eq_true, if_false] at h
      cases h
      exact nonIndPreservedRefl _
  | true, .ptr (some (.slice xs)), v', h => by
      rw [processField.eq_4 G env p true _ (by intro _ h'; cases h')] at h
      simp only [Bool.not_true, Bool.false_eq_true, if_false] at h
      cases h
      exact nonIndPreservedRefl _
  | true, .ptr (some .other), v', h => by
      rw [processField.eq_4 G env p true _ (by intro _ h'; cases h')] at h
      simp only [Bool.not_true, Bool.false_eq_true, if_false] at h
      cases h
      exact nonIndPreservedRefl _
  | true, .map_ entries, v', h => by
      rw [processField.eq_5] at h
      simp only [Bool.not_true, Bool.false_eq_true, if_false] at h
      cases heq : processMap G env p entries with
      | error e => rw [heq] at h; cases h
      | ok entries' =>
          rw [heq] at h
          cases h
          exact processMap_preserves G env p entries entries' heq
  | true, .slice elems, v', h => by
      rw [processField.eq_6] at h
      simp only [Bool.not_true, Bool.false_eq_true, if_false] at h
      cases heq : processSlice G env p elems with
      | error e => rw [heq] at h; cases h
      | ok elems' =>
          rw [heq] at h
          cases h
          exact processSlice_preserves G env p elems elems' heq
  | true, .other, v', h => by
      rw [processField.eq_7] at h
      simp only [Bool.not_true, Bool.false_eq_true, if_false] at h
      cases h
      exact .other

theorem processStructFields_preserves (G : GCMModel) (env : Env) (p : Parser) :
    ∀ (fs fs' : List (Bool × Value)),
      processStructFields G env p fs = .ok fs' →
      NonIndPreserved (.struct_ fs) (.struct_ fs')
  | [], fs', h => by
      rw [processStructFields] at h
      cases h
      exact .structNil
  | (false, v) :: rest, fs', h => by
      rw [processStructFields] at h
      simp only [Bool.not_false, if_pos] at h
      cases heq : processStructFields G env p rest with
      | error e => rw [heq] at h; cases h
      | ok rest' =>
          rw [heq] at h
          cases h
          exact .structCons false v v rest rest' (nonIndPreservedRefl v)
            (processStructFields_preserves G env p rest rest' heq)
  | (true, v) :: rest, fs', h => by
      rw [processStructFields] at h
      simp only [Bool.not_true, Bool.false_eq_true, if_false] at h
      cases hv : processField G env p true v with
      | error e => rw [hv] at h; cases h
      | ok v₀ =>
          rw [hv] at h
          cases heq : processStructFields G env p rest with
          | error e => rw [heq] at h; cases h
          | ok rest' =>
              rw [heq] at h
              cases h
              exact .structCons true v v₀ rest rest'
                (processField_preserves G env p true v v₀ hv)
                (processStructFields_preserves G env p rest rest' heq)

theorem processMap_preserves (G : GCMModel) (env : Env) (p : Parser) :
    ∀ (es es' : List (Str × Value)),
      processMap G env p es = .ok es' →
      NonIndPreserved (.map_ es) (.map_ es')
  | [], es', h => by
      rw [processMap] at h
      cases h
      exact .mapNil
  | (k, .struct_ fields) :: rest, es', h => by
      rw [processMap.eq_2] at h
      cases hv : processField G env p true (.struct_ fields) with
      | error e => rw [hv] at h; cases h
      | ok v₀ =>
          rw [hv] at h
          cases heq : processMap G env p rest with
          | error e => rw [heq] at h; cases h
          | ok rest' =>
              rw [heq] at h
              cases h
              exact .mapCons k _ _ rest rest'
                (processField_preserves G env p true _ v₀ hv)
                (processMap_preserves G env p rest rest' heq)
  | (k, .ptr v?) :: rest, es', h => by
      rw [processMap.eq_3] at h
      cases hv : processField G env p true (.ptr v?) with
      | error e => rw [hv] at h; cases h
      | ok v₀ =>
          rw [hv] at h
          cases heq : processMap G env p rest with
          | error e => rw [heq] at h; cases h
          | ok rest' =>
              rw [heq] at h
              cases h
              exact .mapCons k _ _ rest rest'
                (processField_preserves G env p true _ v₀ hv)
                (processMap_preserves G env p rest rest' heq)
  | (k, .str s) :: rest, es', h => by
      rw [processMap.eq_4] at h
      cases hv : processEnvString G env p s with
      | error e => rw [hv] at h; cases h
      | ok w =>
          rw [hv] at h
          cases heq : processMap G env p rest with
          | error e => rw [heq] at h; cases h
          | ok rest' =>
              rw [heq] at h
              cases h
              refine .mapCons k _ _ rest rest' (.str s w (fun hno => ?_))
                (processMap_preserves G env p rest rest' heq)
              have hok := processEnvString_noInd G env p s hno
              rw [hv] at hok
              exact (Except.ok.injEq _ _).mp hok
  | (k, .map_ es₀) :: rest, es', h => by
      rw [processMap.eq_5 G env p k _ rest (by intro _ h'; cases h')
        (by intro _ h'; cases h') (by intro _ h'; cases h')] at h
      cases heq : processMap G env p rest with
      | error e => rw [heq] at h; cases h
      | ok rest' =>
          rw [heq] at h
          cases h
          exact .mapCons k _ _ rest rest' (nonIndPreservedRefl _)
            (processMap_preserves G env p rest rest' heq)
  | (k, .slice xs) :: rest, es', h => by
      rw [processMap.eq_5 G env p k _ rest (by intro _ h'; cases h')
        (by intro _ h'; cases h') (by intro _ h'; cases h')] at h
      cases heq : processMap G env p rest with
      | error e => rw [heq] at h; cases h
      | ok rest' =>
          rw [heq] at h
          cases h
          exact .mapCons k _ _ rest rest' (nonIndPreservedRefl _)
            (processMap_preserves G env p rest rest' heq)
  | (k, .other) :: rest, es', h => by
      rw [processMap.eq_5 G env p k _ rest (by intro _ h'; cases h')
        (by intro _ h'; cases h') (by intro _ h'; cases h')] at h
      cases heq : processMap G env p rest with
      | error e => rw [heq] at h; cases h
      | ok rest' =>
          rw [heq] at h
          cases h
          exact .mapCons k _ _ rest rest' (nonIndPreservedRefl _)
            (processMap_preserves G env p rest rest' heq)

theorem processSlice_preserves (G : GCMModel) (env : Env) (p : Parser) :
    ∀ (xs xs' : List Value),
      processSlice G env p xs = .ok xs' →
      NonIndPreserved (.slice xs) (.slice xs')
  | [], xs', h => by
      rw [processSlice] at h
      cases h
      exact .sliceNil
  | v :: rest, xs', h => by
      rw [processSlice] at h
      cases hv : processField G env p true v with
      | error e => rw [hv] at h; cases h
      | ok v₀ =>
          rw [hv] at h
          cases heq : processSlice G env p rest with
          | error e => rw [heq] at h; cases h
          | ok rest' =>
              rw [heq] at h
              cases h
              exact .sliceCons v v₀ rest rest'
                (processField_preserves G env p true v v₀ hv)
                (processSlice_preserves G env p rest rest' heq)

end

/-! ## Hex and cipher lemmas -/

theorem hexDigitVal_hexDigitChar (n : Nat) (h : n < 16) :
    hexDigitVal (hexDigitChar n) = some n := by
  unfold hexDigitVal hexDigitChar
  split_ifs <;> try (exfalso; omega)
  all_goals (congr 1; omega)

theorem hexDecodeBytes_hexEncode (bs : List Nat) (h : ∀ b ∈ bs, b < 256) :
    hexDecodeBytes (hexEncode bs) = some bs := by
  induction bs with
  | nil => rfl
  | cons b rest ih =>
      have hb : b < 256 := h b (List.mem_cons_self b rest)
      have hhi : b / 16 < 16 := by omega
      have hlo : b % 16 < 16 := by omega
      rw [hexEncode, hexDecodeBytes, hexDigitVal_hexDigitChar _ hhi,
        hexDigitVal_hexDigitChar _ hlo,
        ih (fun x hx => h x (List.mem_cons_of_mem _ hx))]
      simp [Option.bind]
      omega

theorem hexEncode_ne_nil (bs : List Nat) (h : bs ≠ []) : hexEncode bs ≠ [] := by
  cases bs with
  | nil => exact absurd rfl h
  | cons b rest => rw [hexEncode]; exact List.cons_ne_nil _ _

theorem NewAES256_ok_key (s : Str) (a : AES256) (h : NewAES256 s = .ok a) :
    s ≠ [] ∧ hexDecodeBytes s = some a.key ∧ a.key.length = 32 := by
  unfold NewAES256 at h
  split at h
  · cases h
  next hs =>
    split at h
    next => cases h
    next key hd =>
      split at h
      · cases h
      next hl =>
        cases h
        exact ⟨hs, hd, not_ne_iff.mp hl⟩

theorem NewAES256_of_key (s : Str) (key : List Nat) (hs : s ≠ [])
    (hd : hexDecodeBytes s = some key) (hl : key.length = 32) :
    NewAES256 s = .ok ⟨key⟩ := by
  simp [NewAES256, hs, hd, hl]

theorem validAESKeyLen_of_32 (key : List Nat) (h : key.length = 32) :
    validAESKeyLen key = true := by
  simp [validAESKeyLen, h]

/-- Resolving an encrypted indirection: look the key up, then decrypt. -/
theorem processEnvString_enc (G : GCMModel) (env : Env) (p : Parser)
    (k : Str) :
    processEnvString G env p (EncryptedEnvPrefix ++ k) =
      match GetEnvValue env k with
      | .error e => .error e
      | .ok envValue => decryptEnvValue G p envValue := by
  rw [processEnvString, envPrefix_not_isPrefixOf_enc,
    encPrefix_isPrefixOf_append, trimPrefix_append]
  simp

/-- Decrypting sealed data under the sealing key recovers the plaintext. -/
theorem Decrypt_seal (G : GCMModel) (a : AES256) (nonce p : List Nat)
    (hk : a.key.length = 32) (hn : nonce.length = G.nonceSize) :
    Decrypt G a (nonce ++ G.sealC a.key nonce p) = .ok p := by
  have hvalid := validAESKeyLen_of_32 a.key hk
  have hlen0 : 0 < nonce.length := hn ▸ G.nonceSizePos
  have hne : nonce ++ G.sealC a.key nonce p ≠ [] := by
    cases nonce with
    | nil => simp at hlen0
    | cons x xs => exact List.cons_ne_nil _ _
  rw [Decrypt, if_neg hne, if_pos hvalid]
  have hnl : ¬ (nonce ++ G.sealC a.key nonce p).length < G.nonceSize := by
    rw [List.length_append, hn]; omega
  rw [if_neg hnl]
  have ht : (nonce ++ G.sealC a.key nonce p).take G.nonceSize = nonce := by
    rw [← hn]; exact List.take_left _ _
  have hd : (nonce ++ G.sealC a.key nonce p).drop G.nonceSize
      = G.sealC a.key nonce p := by
    rw [← hn]; exact List.drop_left _ _
  rw [ht, hd, G.seal_open a.key nonce p hk hn]

/-- Decrypting sealed data under a different 32-byte key fails
authentication. -/
theorem Decrypt_seal_auth (G : GCMModel) (a : AES256) (key nonce p : List Nat)
    (hk : key.length = 32) (hk' : a.key.length = 32) (hkne : a.key ≠ key)
    (hn : nonce.length = G.nonceSize) :
    Decrypt G a (nonce ++ G.sealC key nonce p) = .error .decryptionFailed := by
  have hvalid := validAESKeyLen_of_32 a.key hk'
  have hlen0 : 0 < nonce.length := hn ▸ G.nonceSizePos
  have hne : nonce ++ G.sealC key nonce p ≠ [] := by
    cases nonce with
    | nil => simp at hlen0
    | cons x xs => exact List.cons_ne_nil _ _
  rw [Decrypt, if_neg hne, if_pos hvalid]
  have hnl : ¬ (nonce ++ G.sealC key nonce p).length < G.nonceSize := by
    rw [List.length_append, hn]; omega
  rw [if_neg hnl]
  have ht : (nonce ++ G.sealC key nonce p).take G.nonceSize = nonce := by
    rw [← hn]; exact List.take_left _ _
  have hd : (nonce ++ G.sealC key nonce p).drop G.nonceSize
      = G.sealC key nonce p := by
    rw [← hn]; exact List.drop_left _ _
  rw [ht, hd, G.auth key a.key nonce p hk hk' hkne]

/-- `DecryptHexToString` undoes the hex encoding of a non-empty byte list
and decrypts the result. -/
theorem DecryptHexToString_encode (G : GCMModel) (a : AES256) (ct : List Nat)
    (hne : ct ≠ []) (hb : ∀ b ∈ ct, b < 256) :
    DecryptHexToString G a (hexEncode ct) = Decrypt G a ct := by
  rw [DecryptHexToString, hexDecode, if_neg (hexEncode_ne_nil ct hne),
    hexDecodeBytes_hexEncode ct hb]
  rfl

/-! ## Claims -/

/-- C1: for an environment variable `k` set to a non-empty value `v`,
resolving `"#ENV:" ++ k` returns `v`; for an unset `k` it fails with the
missing-variable error naming `k`, and that error aborts the whole
`ProcessStruct` (Resolve) call on a struct containing such a field. -/
theorem plainEnv_resolution (G : GCMModel) (env : Env) (p : Parser)
    (k v : Str) (rest : List (Bool × Value)) :
    (env k = some v → v ≠ [] →
      processEnvString G env p (EnvPrefix ++ k) = .ok v)
    ∧ (Getenv env k = [] →
        processEnvString G env p (EnvPrefix ++ k) = .error (.envNotFound k)
        ∧ ProcessStruct G env p
            (.ptrTo (some (.struct_ ((true, .str (EnvPrefix ++ k)) :: rest))))
            = .error (.envNotFound k)) := by
  constructor
  · intro hv hne
    rw [processEnvString_plain]
    exact GetEnvValue_set env k v hv hne
  · intro hmiss
    have h1 : processEnvString G env p (EnvPrefix ++ k)
        = .error (.envNotFound k) := by
      rw [processEnvString_plain]
      exact GetEnvValue_missing env k hmiss
    refine ⟨h1, ?_⟩
    have hcons : EnvPrefix ++ k ≠ [] := by simp [EnvPrefix]
    have hfield : processField G env p true (.str (EnvPrefix ++ k))
        = .error (.envNotFound k) := by
      rw [processField.eq_1]
      simp only [Bool.not_true, Bool.false_eq_true, if_false, if_neg hcons, h1]
    rw [ProcessStruct, processStructFields]
    simp only [Bool.not_true, Bool.false_eq_true, if_false, hfield]

/-- Witness for C1 at a concrete environment. -/
theorem plainEnv_resolution_witness :
    processEnvString refGCM (fun s => if s = [107] then some [118] else none)
        ⟨[]⟩ (EnvPrefix ++ [107]) = .ok [118]
    ∧ processEnvString refGCM (fun _ => none) ⟨[]⟩ (EnvPrefix ++ [107])
        = .error (.envNotFound [107]) :=
  ⟨(plainEnv_resolution refGCM (fun s => if s = [107] then some [118] else none)
      ⟨[]⟩ [107] [118] []).1 (by decide) (by decide),
   ((plainEnv_resolution refGCM (fun _ => none) ⟨[]⟩ [107] [118] []).2
      (by decide)).1⟩

/-- C2: a non-empty string starting with neither marker resolves to itself
with no error, and consequently `ProcessStruct` (Resolve) preserves every
non-indirection string of the tree at its place. -/
theorem nonIndirection_untouched (G : GCMModel) (env : Env) (p : Parser) :
    (∀ s : Str, s ≠ [] → noIndB s = true → processEnvString G env p s = .ok s)
    ∧ (∀ (canSet : Bool) (v v' : Value),
        processField G env p canSet v = .ok v' → NonIndPreserved v v')
    ∧ (∀ (fs : List (Bool × Value)) (r : RootArg),
        ProcessStruct G env p (.ptrTo (some (.struct_ fs))) = .ok r →
        ∃ fs', r = .ptrTo (some (.struct_ fs'))
          ∧ NonIndPreserved (.struct_ fs) (.struct_ fs')) := by
  refine ⟨fun s _ h => processEnvString_noInd G env p s h,
    fun c v v' h => processField_preserves G env p c v v' h, ?_⟩
  intro fs r h
  rw [ProcessStruct] at h
  cases heq : processStructFields G env p fs with
  | error e => rw [heq] at h; cases h
  | ok fs' =>
      rw [heq] at h
      cases h
      exact ⟨fs', rfl, processStructFields_preserves G env p fs fs' heq⟩

/-- Witness for C2 at a concrete non-indirection string. -/
theorem nonIndirection_untouched_witness :
    processEnvString refGCM (fun _ => none) ⟨[]⟩ [97] = .ok [97] :=
  (nonIndirection_untouched refGCM (fun _ => none) ⟨[]⟩).1 [97]
    (by decide) (by decide)

/-- C4: any top-level argument that is not a non-nil pointer to a struct is
rejected immediately with the usage error, with no mutation. -/
theorem processStruct_usage_error (G : GCMModel) (env : Env) (p : Parser)
    (arg : RootArg)
    (h : ∀ fs : List (Bool × Value), arg ≠ .ptrTo (some (.struct_ fs))) :
    ProcessStruct G env p arg = .error .expectedPointerToStruct := by
  cases arg with
  | nil => rfl
  | val v => rfl
  | ptrTo v? =>
      cases v? with
      | none => rfl
      | some v =>
          cases v with
          | struct_ fs => exact absurd rfl (h fs)
          | str s => rfl
          | ptr w => rfl
          | map_ es => rfl
          | slice xs => rfl
          | other => rfl

/-- Witness for C4 at the nil argument. -/
theorem processStruct_usage_error_witness :
    ProcessStruct refGCM (fun _ => none) ⟨[]⟩ .nil
      = .error .expectedPointerToStruct :=
  processStruct_usage_error refGCM (fun _ => none) ⟨[]⟩ .nil
    (fun _ h => by cases h)

/-- C6: resolution is single-pass — the value written for an indirection is
the environment value verbatim, even if it starts with a marker — and
running the traversal on a tree containing only non-indirection strings is
a no-op with no error. -/
theorem resolution_single_pass (G : GCMModel) (env : Env) (p : Parser)
    (k w : Str) (v : Value) (fs : List (Bool × Value))
    (hk : env k = some w) (hw : w ≠ []) (hv : allNoInd v = true)
    (hfs : allNoIndFields fs = true) :
    processField G env p true (.str (EnvPrefix ++ k)) = .ok (.str w)
    ∧ processField G env p true v = .ok v
    ∧ ProcessStruct G env p (.ptrTo (some (.struct_ fs)))
        = .ok (.ptrTo (some (.struct_ fs))) := by
  refine ⟨?_, processField_allNoInd G env p true v hv, ?_⟩
  · have hcons : EnvPrefix ++ k ≠ [] := by simp [EnvPrefix]
    have h1 : processEnvString G env p (EnvPrefix ++ k) = .ok w := by
      rw [processEnvString_plain]
      exact GetEnvValue_set env k w hk hw
    rw [processField.eq_1]
    simp only [Bool.not_true, Bool.false_eq_true, if_false, if_neg hcons, h1]
  · rw [ProcessStruct, processStructFields_allNoInd G env p fs hfs]

/-- Witness for C6: the looked-up value itself starts with the plain marker
and is still written back verbatim, and a resolved tree is left unchanged. -/
theorem resolution_single_pass_witness :
    processField refGCM (fun _ => some (EnvPrefix ++ [88])) ⟨[]⟩ true
        (.str (EnvPrefix ++ [107])) = .ok (.str (EnvPrefix ++ [88]))
    ∧ processField refGCM (fun _ => some (EnvPrefix ++ [88])) ⟨[]⟩ true
        (.str [97]) = .ok (.str [97])
    ∧ ProcessStruct refGCM (fun _ => some (EnvPrefix ++ [88])) ⟨[]⟩
        (.ptrTo (some (.struct_ [(true, .str [97])])))
        = .ok (.ptrTo (some (.struct_ [(true, .str [97])]))) :=
  resolution_single_pass refGCM (fun _ => some (EnvPrefix ++ [88])) ⟨[]⟩
    [107] (EnvPrefix ++ [88]) (.str [97]) [(true, .str [97])]
    (by decide) (by decide) (by decide) (by decide)

/-- C10: `GetEnvValue` returns the missing-variable error exactly when the
Go-level environment lookup yields the empty string, so a variable set to
the empty string is indistinguishable from an unset one, and resolving
`"#ENV:" ++ k` for such a variable fails instead of yielding the empty
string. -/
theorem getEnvValue_empty_is_missing (G : GCMModel) (env env' : Env)
    (p : Parser) (k : Str) :
    (GetEnvValue env k = .error (.envNotFound k) ↔ Getenv env k = [])
    ∧ (env k = some [] →
        GetEnvValue env k = .error (.envNotFound k)
        ∧ processEnvString G env p (EnvPrefix ++ k)
            = .error (.envNotFound k))
    ∧ (env' k = none → GetEnvValue env' k = .error (.envNotFound k)) := by
  refine ⟨?_, ?_, ?_⟩
  · by_cases h : Getenv env k = []
    · simp [GetEnvValue, h]
    · simp [GetEnvValue, h]
  · intro h
    have hg : Getenv env k = [] := by simp [Getenv, h]
    exact ⟨GetEnvValue_missing env k hg, by
      rw [processEnvString_plain]; exact GetEnvValue_missing env k hg⟩
  · intro h
    have hg : Getenv env' k = [] := by simp [Getenv, h]
    exact GetEnvValue_missing env' k hg

/-- Witness for C10: set-but-empty and unset both produce the same error. -/
theorem getEnvValue_empty_is_missing_witness :
    GetEnvValue (fun _ => some []) [107] = .error (.envNotFound [107])
    ∧ processEnvString refGCM (fun _ => some []) ⟨[]⟩ (EnvPrefix ++ [107])
        = .error (.envNotFound [107])
    ∧ GetEnvValue (fun _ => none) [107] = .error (.envNotFound [107]) :=
  ⟨((getEnvValue_empty_is_missing refGCM (fun _ => some []) (fun _ => none)
      ⟨[]⟩ [107]).2.1 rfl).1,
   ((getEnvValue_empty_is_missing refGCM (fun _ => some []) (fun _ => none)
      ⟨[]⟩ [107]).2.1 rfl).2,
   (getEnvValue_empty_is_missing refGCM (fun _ => some []) (fun _ => none)
      ⟨[]⟩ [107]).2.2 rfl⟩

/-- A failing field aborts `processStructFields` with that exact error,
whatever comes after it. -/
theorem processStructFields_error_append (G : GCMModel) (env : Env)
    (p : Parser) (e : Err) (v : Value) :
    ∀ (pre pre' : List (Bool × Value)),
      processStructFields G env p pre = .ok pre' →
      processField G env p true v = .error e →
      ∀ post, processStructFields G env p (pre ++ (true, v) :: post) = .error e
  | [], pre', hpre, hv, post => by
      rw [List.nil_append, processStructFields]
      simp only [Bool.not_true, Bool.false_eq_true, if_false, hv]
  | (b, v0) :: pre, pre', hpre, hv, post => by
      rw [processStructFields] at hpre
      cases b with
      | false =>
          simp only [Bool.not_false, if_pos] at hpre
          cases heq : processStructFields G env p pre with
          | error e0 => rw [heq] at hpre; cases hpre
          | ok pre0 =>
              rw [List.cons_append, processStructFields,
                processStructFields_error_append G env p e v pre pre0 heq hv
                  post]
              simp
      | true =>
          simp only [Bool.not_true, Bool.false_eq_true, if_false] at hpre
          cases hv0 : processField G env p true v0 with
          | error e0 => rw [hv0] at hpre; cases hpre
          | ok w0 =>
              rw [hv0] at hpre
              cases heq : processStructFields G env p pre with
              | error e0 => rw [heq] at hpre; cases hpre
              | ok pre0 =>
                  rw [List.cons_append, processStructFields]
                  simp only [Bool.not_true, Bool.false_eq_true, if_false, hv0,
                    processStructFields_error_append G env p e v pre pre0 heq
                      hv post]

/-- A failing element aborts `processSlice` with that exact error, whatever
comes after it. -/
theorem processSlice_error_append (G : GCMModel) (env : Env) (p : Parser)
    (e : Err) (v : Value) :
    ∀ (pre pre' : List Value),
      processSlice G env p pre = .ok pre' →
      processField G env p true v = .error e →
      ∀ post, processSlice G env p (pre ++ v :: post) = .error e
  | [], pre', hpre, hv, post => by
      rw [List.nil_append, processSlice, hv]
  | v0 :: pre, pre', hpre, hv, post => by
      rw [processSlice] at hpre
      cases hv0 : processField G env p true v0 with
      | error e0 => rw [hv0] at hpre; cases hpre
      | ok w0 =>
          rw [hv0] at hpre
          cases heq : processSlice G env p pre with
          | error e0 => rw [heq] at hpre; cases hpre
          | ok pre0 =>
              rw [List.cons_append, processSlice, hv0,
                processSlice_error_append G env p e v pre pre0 heq hv post]

/-- A failing string entry aborts `processMap` with that exact error,
whatever comes after it. -/
theorem processMap_error_append (G : GCMModel) (env : Env) (p : Parser)
    (e : Err) (s : Str) (k : Str) :
    ∀ (pre pre' : List (Str × Value)),
      processMap G env p pre = .ok pre' →
      processEnvString G env p s = .error e →
      ∀ post, processMap G env p (pre ++ (k, .str s) :: post) = .error e
  | [], pre', hpre, hs, post => by
      rw [List.nil_append, processMap.eq_4, hs]
  | (k0, v0) :: pre, pre', hpre, hs, post => by
      cases v0 with
      | struct_ fs =>
          rw [processMap.eq_2] at hpre
          cases hv0 : processField G env p true (.struct_ fs) with
          | error e0 => rw [hv0] at hpre; cases hpre
          | ok w0 =>
              rw [hv0] at hpre
              cases heq : processMap G env p pre with
              | error e0 => rw [heq] at hpre; cases hpre
              | ok pre0 =>
                  rw [List.cons_append, processMap.eq_2, hv0,
                    processMap_error_append G env p e s k pre pre0 heq hs post]
      | ptr v? =>
          rw [processMap.eq_3] at hpre
          cases hv0 : processField G env p true (.ptr v?) with
          | error e0 => rw [hv0] at hpre; cases hpre
          | ok w0 =>
              rw [hv0] at hpre
              cases heq : processMap G env p pre with
              | error e0 => rw [heq] at hpre; cases hpre
              | ok pre0 =>
                  rw [List.cons_append, processMap.eq_3, hv0,
                    processMap_error_append G env p e s k pre pre0 heq hs post]
      | str s0 =>
          rw [processMap.eq_4] at hpre
          cases hv0 : processEnvString G env p s0 with
          | error e0 => rw [hv0] at hpre; cases hpre
          | ok w0 =>
              rw [hv0] at hpre
              cases heq : processMap G env p pre with
              | error e0 => rw [heq] at hpre; cases hpre
              | ok pre0 =>
                  rw [List.cons_append, processMap.eq_4, hv0,
                    processMap_error_append G env p e s k pre pre0 heq hs post]
      | map_ es0 =>
          rw [processMap.eq_5 G env p k0 _ pre (by intro _ h'; cases h')
            (by intro _ h'; cases h') (by intro _ h'; cases h')] at hpre
          cases heq : processMap G env p pre with
          | error e0 => rw [heq] at hpre; cases hpre
          | ok pre0 =>
              rw [List.cons_append,
                processMap.eq_5 G env p k0 _ (pre ++ (k, .str s) :: post)
                  (by intro _ h'; cases h') (by intro _ h'; cases h')
                  (by intro _ h'; cases h'),
                processMap_error_append G env p e s k pre pre0 heq hs post]
      | slice xs =>
          rw [processMap.eq_5 G env p k0 _ pre (by intro _ h'; cases h')
            (by intro _ h'; cases h') (by intro _ h'; cases h')] at hpre
          cases heq : processMap G env p pre with
          | error e0 => rw [heq] at hpre; cases hpre
          | ok pre0 =>
              rw [List.cons_append,
                processMap.eq_5 G env p k0 _ (pre ++ (k, .str s) :: post)
                  (by intro _ h'; cases h') (by intro _ h'; cases h')
                  (by intro _ h'; cases h'),
                processMap_error_append G env p e s k pre pre0 heq hs post]
      | other =>
          rw [processMap.eq_5 G env p k0 _ pre (by intro _ h'; cases h')
            (by intro _ h'; cases h') (by intro _ h'; cases h')] at hpre
          cases heq : processMap G env p pre with
          | error e0 => rw [heq] at hpre; cases hpre
          | ok pre0 =>
              rw [List.cons_append,
                processMap.eq_5 G env p k0 _ (pre ++ (k, .str s) :: post)
                  (by intro _ h'; cases h') (by intro _ h'; cases h')
                  (by intro _ h'; cases h'),
                processMap_error_append G env p e s k pre pre0 heq hs post]

/-- C7: the first error of any recursive step aborts the traversal with
exactly that error; the fields, map entries and slice elements after the
failing one do not influence the result. -/
theorem first_error_aborts (G : GCMModel) (env : Env) (p : Parser)
    (e : Err) :
    (∀ (pre pre' : List (Bool × Value)) (v : Value),
      processStructFields G env p pre = .ok pre' →
      processField G env p true v = .error e →
      ∀ post, processStructFields G env p (pre ++ (true, v) :: post)
        = .error e)
    ∧ (∀ (pre pre' : List Value) (v : Value),
      processSlice G env p pre = .ok pre' →
      processField G env p true v = .error e →
      ∀ post, processSlice G env p (pre ++ v :: post) = .error e)
    ∧ (∀ (pre pre' : List (Str × Value)) (k s : Str),
      processMap G env p pre = .ok pre' →
      processEnvString G env p s = .error e →
      ∀ post, processMap G env p (pre ++ (k, .str s) :: post) = .error e) :=
  ⟨fun pre pre' v h1 h2 post =>
      processStructFields_error_append G env p e v pre pre' h1 h2 post,
   fun pre pre' v h1 h2 post =>
      processSlice_error_append G env p e v pre pre' h1 h2 post,
   fun pre pre' k s h1 h2 post =>
      processMap_error_append G env p e s k pre pre' h1 h2 post⟩

/-- Witness for C7: a missing variable in the middle of a struct, a slice
and a map aborts each traversal with the missing-variable error. -/
theorem first_error_aborts_witness :
    processStructFields refGCM (fun _ => none) ⟨[]⟩
      [(true, .str [97]), (true, .str (EnvPrefix ++ [107])), (true, .other)]
      = .error (.envNotFound [107])
    ∧ processSlice refGCM (fun _ => none) ⟨[]⟩
      [.str [97], .str (EnvPrefix ++ [107]), .other]
      = .error (.envNotFound [107])
    ∧ processMap refGCM (fun _ => none) ⟨[]⟩
      [([98], .str [97]), ([99], .str (EnvPrefix ++ [107])), ([100], .other)]
      = .error (.envNotFound [107]) :=
  ⟨(first_error_aborts refGCM (fun _ => none) ⟨[]⟩ (.envNotFound [107])).1
      [(true, .str [97])] [(true, .str [97])] (.str (EnvPrefix ++ [107]))
      (by rfl) (by rfl) [(true, .other)],
   (first_error_aborts refGCM (fun _ => none) ⟨[]⟩ (.envNotFound [107])).2.1
      [.str [97]] [.str [97]] (.str (EnvPrefix ++ [107]))
      (by rfl) (by rfl) [.other],
   (first_error_aborts refGCM (fun _ => none) ⟨[]⟩ (.envNotFound [107])).2.2
      [([98], .str [97])] [([98], .str [97])] [99] (EnvPrefix ++ [107])
      (by rfl) (by rfl) [([100], .other)]⟩

/-- C8: `NewAES256` succeeds exactly on hex strings decoding to 32 bytes;
the empty key, invalid hex, and a wrong decoded length each fail, the last
with the distinct sentinel `invalidKeyLength`. -/
theorem newAES256_key_validation (s : Str) :
    ((∃ a, NewAES256 s = .ok a) ↔
      ∃ key, hexDecodeBytes s = some key ∧ key.length = 32)
    ∧ NewAES256 [] = .error .emptyKey
    ∧ (hexDecodeBytes s = none → NewAES256 s = .error .invalidHexKey)
    ∧ (∀ key, hexDecodeBytes s = some key → key.length ≠ 32 → s ≠ [] →
        NewAES256 s = .error .invalidKeyLength)
    ∧ Err.invalidKeyLength ≠ .emptyKey
    ∧ Err.invalidKeyLength ≠ .invalidHexKey := by
  refine ⟨⟨?_, ?_⟩, rfl, ?_, ?_, by decide, by decide⟩
  · rintro ⟨a, ha⟩
    obtain ⟨hs, hd, hl⟩ := NewAES256_ok_key s a ha
    exact ⟨a.key, hd, hl⟩
  · rintro ⟨key, hd, hl⟩
    have hs : s ≠ [] := by
      intro h
      subst h
      rw [hexDecodeBytes] at hd
      cases hd
      simp at hl
    exact ⟨⟨key⟩, NewAES256_of_key s key hs hd hl⟩
  · intro hnone
    have hs : s ≠ [] := by
      intro h
      subst h
      rw [hexDecodeBytes] at hnone
      cases hnone
    simp [NewAES256, hs, hnone]
  · intro key hd hne hs
    simp [NewAES256, hs, hd, hne]

/-- Witness for C8: a valid 32-byte key, invalid hex, and a 1-byte key. -/
theorem newAES256_key_validation_witness :
    (∃ a, NewAES256 (hexEncode (List.replicate 32 0)) = .ok a)
    ∧ NewAES256 [122, 122] = .error .invalidHexKey
    ∧ NewAES256 [48, 48] = .error .invalidKeyLength :=
  ⟨(newAES256_key_validation (hexEncode (List.replicate 32 0))).1.mpr
      ⟨List.replicate 32 0, by decide, by decide⟩,
   (newAES256_key_validation [122, 122]).2.2.1 (by decide),
   (newAES256_key_validation [48, 48]).2.2.2.1 [0] (by decide) (by decide)
      (by decide)⟩

/-- C9: decrypting the output of encryption under the same 32-byte key
returns the plaintext, for every nonce the encryption may draw. -/
theorem aes_roundTrip (G : GCMModel) (a : AES256) (nonce p c : List Nat)
    (hk : a.key.length = 32) (hn : nonce.length = G.nonceSize)
    (hc : Encrypt G a nonce p = .ok c) :
    Decrypt G a c = .ok p := by
  have hvalid := validAESKeyLen_of_32 a.key hk
  rw [Encrypt] at hc
  by_cases hp : p = []
  · rw [if_pos hp] at hc; cases hc
  · rw [if_neg hp, if_pos hvalid] at hc
    cases hc
    exact Decrypt_seal G a nonce p hk hn

/-- Witness for C9 at a concrete key, nonce and plaintext. -/
theorem aes_roundTrip_witness :
    Decrypt refGCM ⟨List.replicate 32 0⟩
      ([7] ++ refGCM.sealC (List.replicate 32 0) [7] [1, 2]) = .ok [1, 2] :=
  aes_roundTrip refGCM ⟨List.replicate 32 0⟩ [7] [1, 2]
    ([7] ++ refGCM.sealC (List.replicate 32 0) [7] [1, 2])
    (by decide) (by decide) (by rfl)

/-- C5: a map entry holding a struct or a pointer is processed on a copy
and reinserted under the same key, and inside the reinserted struct exactly
the indirection fields are replaced while sibling fields keep their
original values. -/
theorem mapEntry_copy_resolve (G : GCMModel) (env : Env) (p : Parser)
    (k key v s : Str)
    (hv : env key = some v) (hvne : v ≠ []) (hsne : s ≠ [])
    (hno : noIndB s = true) :
    (∀ (fs : List (Bool × Value)) (rest : List (Str × Value)),
      processMap G env p ((k, .struct_ fs) :: rest) =
        match processField G env p true (.struct_ fs) with
        | .error e => .error e
        | .ok v' =>
          match processMap G env p rest with
          | .error e => .error e
          | .ok rest' => .ok ((k, v') :: rest'))
    ∧ (∀ (v? : Option Value) (rest : List (Str × Value)),
      processMap G env p ((k, .ptr v?) :: rest) =
        match processField G env p true (.ptr v?) with
        | .error e => .error e
        | .ok v' =>
          match processMap G env p rest with
          | .error e => .error e
          | .ok rest' => .ok ((k, v') :: rest'))
    ∧ processMap G env p
        [(k, .struct_ [(true, .str (EnvPrefix ++ key)), (true, .str s)])]
        = .ok [(k, .struct_ [(true, .str v), (true, .str s)])] := by
  refine ⟨fun fs rest => processMap.eq_2 G env p k rest fs,
    fun v? rest => processMap.eq_3 G env p k rest v?, ?_⟩
  have hcons : EnvPrefix ++ key ≠ [] := by simp [EnvPrefix]
  have h1 : processEnvString G env p (EnvPrefix ++ key) = .ok v := by
    rw [processEnvString_plain]
    exact GetEnvValue_set env key v hv hvne
  have hfield1 : processField G env p true (.str (EnvPrefix ++ key))
      = .ok (.str v) := by
    rw [processField.eq_1]
    simp only [Bool.not_true, Bool.false_eq_true, if_false, if_neg hcons, h1]
  have hfield2 : processField G env p true (.str s) = .ok (.str s) := by
    rw [processField.eq_1]
    simp only [Bool.not_true, Bool.false_eq_true, if_false, if_neg hsne,
      processEnvString_noInd G env p s hno]
  have hfs : processStructFields G env p
      [(true, .str (EnvPrefix ++ key)), (true, .str s)]
      = .ok [(true, .str v), (true, .str s)] := by
    rw [processStructFields]
    simp only [Bool.not_true, Bool.false_eq_true, if_false, hfield1]
    rw [processStructFields]
    simp only [Bool.not_true, Bool.false_eq_true, if_false, hfield2]
    rw [processStructFields]
  have hcopy : processField G env p true
      (.struct_ [(true, .str (EnvPrefix ++ key)), (true, .str s)])
      = .ok (.struct_ [(true, .str v), (true, .str s)]) := by
    rw [processField.eq_2]
    simp only [Bool.not_true, Bool.false_eq_true, if_false, hfs]
  rw [processMap.eq_2, hcopy, processMap.eq_1]

/-- Witness for C5: the indirection field is replaced, its sibling is
untouched, under the same key. -/
theorem mapEntry_copy_resolve_witness :
    processMap refGCM (fun _ => some [118]) ⟨[]⟩
      [([109], .struct_ [(true, .str (EnvPrefix ++ [107])),
        (true, .str [97])])]
      = .ok [([109], .struct_ [(true, .str [118]), (true, .str [97])])] :=
  (mapEntry_copy_resolve refGCM (fun _ => some [118]) ⟨[]⟩
    [109] [107] [118] [97] (by decide) (by decide) (by decide)
    (by decide)).2.2

/-- C3: for an environment variable holding the hex ciphertext of plaintext
`p` under a 32-byte key, resolving the encrypted indirection with the
matching secret yields `p`; with any other secret — one that fails to build
a decryptor, or one decoding to a different 32-byte key — it fails with a
cryptographic error distinguishable from the missing-variable error. -/
theorem encryptedEnv_resolution (G : GCMModel) (env : Env)
    (k K Khex : Str) (nonce p : List Nat)
    (hKdec : hexDecodeBytes Khex = some K) (hKlen : K.length = 32)
    (hKne : Khex ≠ []) (hn : nonce.length = G.nonceSize) (hp : p ≠ [])
    (hbytes : ∀ b ∈ nonce ++ G.sealC K nonce p, b < 256)
    (henv : env k = some (hexEncode (nonce ++ G.sealC K nonce p))) :
    processEnvString G env ⟨Khex⟩ (EncryptedEnvPrefix ++ k) = .ok p
    ∧ (∀ (secret : Str) (e : Err), NewAES256 secret = .error e →
        processEnvString G env ⟨secret⟩ (EncryptedEnvPrefix ++ k)
          = .error (.createDecryptorFailed e))
    ∧ (∀ (secret : Str) (a : AES256), NewAES256 secret = .ok a →
        a.key ≠ K →
        processEnvString G env ⟨secret⟩ (EncryptedEnvPrefix ++ k)
          = .error .decryptionFailed)
    ∧ (∀ (j : Str) (e : Err),
        Err.decryptionFailed ≠ .envNotFound j
        ∧ Err.createDecryptorFailed e ≠ .envNotFound j) := by
  have hctne : nonce ++ G.sealC K nonce p ≠ [] := by
    have hlen0 : 0 < nonce.length := hn ▸ G.nonceSizePos
    cases nonce with
    | nil => simp at hlen0
    | cons x xs => exact List.cons_ne_nil _ _
  have hGet : GetEnvValue env k = .ok (hexEncode (nonce ++ G.sealC K nonce p)) :=
    GetEnvValue_set env k _ henv (hexEncode_ne_nil _ hctne)
  refine ⟨?_, ?_, ?_, fun j e => ⟨fun h => (by cases h), fun h => (by cases h)⟩⟩
  · rw [processEnvString_enc, hGet]
    show decryptEnvValue G ⟨Khex⟩ _ = .ok p
    rw [decryptEnvValue]
    rw [NewAES256_of_key Khex K hKne hKdec hKlen]
    show DecryptHexToString G ⟨K⟩ _ = .ok p
    rw [DecryptHexToString_encode G ⟨K⟩ _ hctne hbytes]
    exact Decrypt_seal G ⟨K⟩ nonce p hKlen hn
  · intro secret e he
    rw [processEnvString_enc, hGet]
    show decryptEnvValue G ⟨secret⟩ _ = _
    rw [decryptEnvValue, he]
  · intro secret a ha hane
    obtain ⟨-, -, halen⟩ := NewAES256_ok_key secret a ha
    rw [processEnvString_enc, hGet]
    show decryptEnvValue G ⟨secret⟩ _ = _
    rw [decryptEnvValue, ha]
    show DecryptHexToString G a _ = _
    rw [DecryptHexToString_encode G a _ hctne hbytes]
    exact Decrypt_seal_auth G a K nonce p hKlen halen hane hn

/-- Witness for C3: the ciphertext of "hello" under the zero key resolves
with the matching secret and fails authentication with a different key. -/
theorem encryptedEnv_resolution_witness :
    processEnvString refGCM
      (fun _ => some (hexEncode
        ([0] ++ refGCM.sealC (List.replicate 32 0) [0]
          [104, 101, 108, 108, 111])))
      ⟨hexEncode (List.replicate 32 0)⟩
      (EncryptedEnvPrefix ++ [75]) = .ok [104, 101, 108, 108, 111]
    ∧ processEnvString refGCM
      (fun _ => some (hexEncode
        ([0] ++ refGCM.sealC (List.replicate 32 0) [0]
          [104, 101, 108, 108, 111])))
      ⟨hexEncode (List.replicate 32 1)⟩
      (EncryptedEnvPrefix ++ [75]) = .error .decryptionFailed :=
  ⟨(encryptedEnv_resolution refGCM
      (fun _ => some (hexEncode
        ([0] ++ refGCM.sealC (List.replicate 32 0) [0]
          [104, 101, 108, 108, 111])))
      [75] (List.replicate 32 0) (hexEncode (List.replicate 32 0)) [0]
      [104, 101, 108, 108, 111]
      (by decide) (by decide) (by decide) (by decide) (by decide)
      (by decide) rfl).1,
   (encryptedEnv_resolution refGCM
      (fun _ => some (hexEncode
        ([0] ++ refGCM.sealC (List.replicate 32 0) [0]
          [104, 101, 108, 108, 111])))
      [75] (List.replicate 32 0) (hexEncode (List.replicate 32 0)) [0]
      [104, 101, 108, 108, 111]
      (by decide) (by decide) (by decide) (by decide) (by decide)
      (by decide) rfl).2.2.1 (hexEncode (List.replicate 32 1))
      ⟨List.replicate 32 1⟩ (by rfl) (by decide)⟩

end Tools
